import Mathlib

/-!
Verification of the vscode-csproj project-descriptor engine.

The embedding below translates the control flow of `src/extension.ts`
(and the exported surface of `src/statusbar.ts`) into executable Lean
definitions.  Stateful code is modelled by explicit state passing over a
`World` record together with an event trace (`List Ev`) recording the
externally observable operations (cache-invalidation toggles, prompts,
messages, descriptor mutations and persists).  Asynchronous collaborator
results (user prompt choices, descriptor resolution, persist success) are
supplied as explicit parameters so every path of the source is a value of
the model.
-/

namespace VscodeCsproj

/-! ## Path helpers (Node `path` module, as used by extension.ts) -/

/-- Characters the source treats as path separators: the regex
test in `csprojCommand` matches a forward slash or a backslash. -/
def isSepChar (c : Char) : Bool := c = '/' || c = '\\'

/-- True when the path contains a separator: models the test
of the regex matching a slash or backslash in extension.ts line 99. -/
def hasSep (s : String) : Bool := s.toList.any isSepChar

/-- `suff.isSuffixOf s`: models `String.prototype.endsWith`. -/
def hasSuffix (s suff : String) : Bool := suff.toList.isSuffixOf s.toList

/-- Last path segment of `p`: models Node `path.basename` on a path
without a trailing separator. -/
def basenameAux : List Char → List Char → List Char
  | [], acc => acc
  | c :: rest, acc =>
    if isSepChar c then basenameAux rest [] else basenameAux rest (acc ++ [c])

/-- Models Node `path.basename`. -/
def basename (p : String) : String := String.mk (basenameAux p.toList [])

/-- Index of the last occurrence of `c`, if any. -/
def lastIdxOf (c : Char) : List Char → Option Nat
  | [] => none
  | x :: xs =>
    match lastIdxOf c xs with
    | some i => some (i + 1)
    | none => if x = c then some 0 else none

/-- Models Node `path.extname` on a bare file name: the suffix starting at
the last dot, empty when there is no dot or the only dot is leading
(so a dotfile such as `.bashrc` has no extension). -/
def extname (fileName : String) : String :=
  match lastIdxOf '.' fileName.toList with
  | none => ""
  | some 0 => ""
  | some i => String.mk (fileName.toList.drop i)

/-! ## Item types (`ItemType` from types.ts, `getTypeForFile` from extension.ts) -/

/-- `ItemType` of types.ts: either a single uniform tag (a string) or an
extension-to-tag object, modelled as an association list with unique keys. -/
inductive ItemType where
  | uniform (tag : String)
  | byExt (m : List (String × String))
deriving DecidableEq

/-- JavaScript property lookup `obj[key]` on an object modelled as an
association list: `none` models `undefined`. -/
def jsLookup (m : List (String × String)) (k : String) : Option String :=
  (m.find? (fun p => p.1 == k)).map Prod.snd

/-- JavaScript `x || d` where `x` is a string or `undefined`: `undefined`
and the empty string are falsy and select `d`. -/
def jsOr (v : Option String) (d : String) : String :=
  match v with
  | some s => if s = "" then d else s
  | none => d

/-- `getTypeForFile` (extension.ts lines 203-208):
`typeof itemType === 'string' ? itemType : itemType[extension] || itemType['*'] || 'Content'`. -/
def getTypeForFile (fileName : String) (itemType : ItemType) : String :=
  match itemType with
  | ItemType.uniform s => s
  | ItemType.byExt m => jsOr (jsLookup m (extname fileName)) (jsOr (jsLookup m "*") "Content")

/-- The spec's reading of extension-map resolution (§4.3a): look up the
file's extension; if absent, fall back to the wildcard key; if that is
also absent, fall back to the built-in default tag `Content`.  Stated
from the spec's words, to be compared with `getTypeForFile`. -/
def specResolveByExt (m : List (String × String)) (ext : String) : String :=
  match jsLookup m ext with
  | some t => t
  | none =>
    match jsLookup m "*" with
    | some t => t
    | none => "Content"

/-- The default `itemType` configuration value hard-coded in
`pickActions[YES]` (extension.ts lines 140-143). -/
def defaultItemType : ItemType :=
  ItemType.byExt [("*", "Content"), (".ts", "TypeScriptCompile")]

/-! ## Data model: descriptors, world state, event traces -/

/-- `Csproj` of types.ts: descriptor path, display name, and the parsed
item entries.  The XML tree is abstracted to its item list: each entry is
a (file path, item type) pair keyed by the path the extension passes. -/
structure Csproj where
  fsPath : String
  name : String
  entries : List (String × String)
deriving DecidableEq

/-- Process-wide mutable state touched by extension.ts:
the invalidation-suppression flag of the descriptor cache, the live
descriptor objects (shared by reference in the source, here keyed by
`fsPath`), the persisted on-disk item lists, and the ignored-paths list
stored in `globalState`. -/
structure World where
  suppressed : Bool
  mem : List Csproj
  disk : List (String × List (String × String))
  ignorePaths : List String
deriving DecidableEq

/-- Look up a live descriptor by its path. -/
def findCsproj (mem : List Csproj) (p : String) : Option Csproj :=
  mem.find? (fun c => c.fsPath == p)

/-- Replace the live descriptor with the same path (models in-place
mutation of the shared object). -/
def updateCsproj (mem : List Csproj) (c : Csproj) : List Csproj :=
  mem.map (fun x => if x.fsPath == c.fsPath then c else x)

/-- Overwrite (or create) the on-disk item list for a descriptor. -/
def diskWrite (disk : List (String × List (String × String))) (c : Csproj) :
    List (String × List (String × String)) :=
  if disk.any (fun p => p.1 == c.fsPath) then
    disk.map (fun p => if p.1 == c.fsPath then (p.1, c.entries) else p)
  else disk ++ [(c.fsPath, c.entries)]

/-- Modelled from the spec: `CsprojUtil.hasFile` lives in csproj.ts, which
is not under src/; §4.3 `hasEntry` is true iff an entry for the file
exists (relative-path normalization abstracted: entries are keyed by the
path the extension passes). -/
def hasFile (c : Csproj) (filePath : String) : Bool :=
  c.entries.any (fun e => e.1 == filePath)

/-- Modelled from the spec: `CsprojUtil.addFile` lives in csproj.ts, which
is not under src/; §4.3 `addEntry` is a no-op when the entry exists,
otherwise inserts a new entry with the given item-type tag. -/
def addFile (c : Csproj) (filePath itemType : String) : Csproj :=
  if hasFile c filePath then c
  else { c with entries := c.entries ++ [(filePath, itemType)] }

/-- Modelled from the spec: `CsprojUtil.removeFile` lives in csproj.ts,
which is not under src/; §4.3 `removeEntry` removes the entry by path and
tolerates an absent entry as a no-op. -/
def removeFile (c : Csproj) (filePath : String) : Csproj :=
  { c with entries := c.entries.filter (fun e => !(e.1 == filePath)) }

/-- Persist a descriptor: models `CsprojUtil.persist` writing the
in-memory tree back to its file (§4.4). -/
def persist (w : World) (c : Csproj) : World :=
  { w with disk := diskWrite w.disk c }

/-- Externally observable operations performed by extension.ts. -/
inductive Ev where
  | suppressOn : Ev
  | suppressOff : Ev
  | resolveEv (fsPath : String) : Ev
  | promptWarn (msg : String) : Ev
  | promptInfo (msg : String) : Ev
  | showErrorMsg (msg : String) : Ev
  | removeFileEv (csprojPath filePath : String) : Ev
  | addFileEv (csprojPath filePath tag : String) : Ev
  | persistEv (csprojPath : String) : Ev
  | statusDisplay (name : String) (contained : Bool) : Ev
  | statusHide : Ev
  | execAddCmd (fsPath : String) : Ev
deriving DecidableEq

/-- Events that present a user prompt or informational message. -/
def isPromptEv : Ev → Bool
  | Ev.promptWarn _ => true
  | Ev.promptInfo _ => true
  | _ => false

/-- Errors raised by descriptor resolution: `NoCsprojError` from
CsprojUtil, or any other failure (carried as its message). -/
inductive CsErr where
  | noCsproj : CsErr
  | other (msg : String) : CsErr
deriving DecidableEq

/-! ## Messages (extension.ts lines 239-246) -/

/-- `singleDeleteMessage` (extension.ts lines 239-242). -/
def singleDeleteMessage (csproj : Csproj) (filePath : String) : String :=
  basename filePath ++ " was deleted. Remove it from " ++ csproj.name ++ "?"

/-- `multiDeleteMessage` (extension.ts lines 244-246). -/
def multiDeleteMessage (filePaths : List String) : String :=
  toString filePaths.length ++ " files were deleted. Remove them from csproj?"

/-! ## The remove command (extension.ts lines 248-279) -/

/-- The try-block of `csprojRemoveCommand`: `removeFile`, then `persist`
only when no csproj was provided by the caller (lines 269-278).  `removeOk`
and `persistOk` say whether the respective collaborator call succeeds; a
failure is caught inside the command and surfaced with `showErrorMessage`. -/
def removeBody (w : World) (fsPath : String) (cref : Csproj) (csprojProvided : Bool)
    (removeOk persistOk : Bool) : World × List Ev :=
  if removeOk then
    let cur := (findCsproj w.mem cref.fsPath).getD cref
    let c2 := removeFile cur fsPath
    let w2 : World := { w with mem := updateCsproj w.mem c2 }
    if csprojProvided then
      (w2, [Ev.removeFileEv cref.fsPath fsPath])
    else if persistOk then
      (persist w2 c2, [Ev.removeFileEv cref.fsPath fsPath, Ev.persistEv cref.fsPath])
    else
      (w2, [Ev.removeFileEv cref.fsPath fsPath, Ev.persistEv cref.fsPath,
            Ev.showErrorMsg "persist failed"])
  else
    (w, [Ev.showErrorMsg "remove failed"])

/-- `csprojRemoveCommand` (extension.ts lines 248-279).  When no csproj is
provided, the descriptor is resolved first (`resolveOutcome` supplies the
result of `CsprojUtil.forFile`); a `NoCsprojError` there is surfaced with
a user-visible error message, any other resolution error only with
`console.trace`. -/
def csprojRemoveCommand (w : World) (fsPath : String) (provided : Option Csproj)
    (resolveOutcome : Except CsErr Csproj) (removeOk persistOk : Bool) : World × List Ev :=
  match provided with
  | some c => removeBody w fsPath c true removeOk persistOk
  | none =>
    match resolveOutcome with
    | Except.error CsErr.noCsproj =>
      (w, [Ev.resolveEv fsPath,
           Ev.showErrorMsg ("Unable to locate csproj for file: " ++ basename fsPath)])
    | Except.error (CsErr.other _) => (w, [Ev.resolveEv fsPath])
    | Except.ok c =>
      let r := removeBody w fsPath c false removeOk persistOk
      (r.1, Ev.resolveEv fsPath :: r.2)

/-! ## The batched-deletion flush (extension.ts lines 179-201) -/

/-- Collaborator inputs consumed by one flush of the deletion batch:
the `silentDeletion` configuration flag, the user's response to the
warning prompt (`none` models a dismissed or blurred prompt), and whether
the remove / persist calls of individual removals succeed. -/
structure FlushEnv where
  silentDeletion : Bool
  warnChoice : Option String
  removeOk : Bool
  persistOk : Bool
deriving DecidableEq

/-- The loop body of the flush: each pending pair is handed to
`extension.csproj.remove` with the csproj provided (extension.ts
lines 192-196). -/
def runRemovals (removeOk persistOk : Bool) (w : World) :
    List (Csproj × String) → World × List Ev
  | [] => (w, [])
  | r :: rs =>
    let step := csprojRemoveCommand w r.2 (some r.1) (Except.ok r.1) removeOk persistOk
    let rest := runRemovals removeOk persistOk step.1 rs
    (rest.1, step.2 ++ rest.2)

/-- The flush's confirmation message (extension.ts lines 185-187). -/
def flushMessage (r0 : Csproj × String) (rest : List (Csproj × String)) : String :=
  if 1 < (r0 :: rest).length then multiDeleteMessage ((r0 :: rest).map Prod.snd)
  else singleDeleteMessage r0.1 r0.2

/-- `silentDeletion || await showWarningMessage(message, YES) === YES`
(extension.ts lines 189-190): with the flag set the prompt is
short-circuited away and deletion proceeds. -/
def flushDoDelete (env : FlushEnv) : Bool :=
  env.silentDeletion || decide (env.warnChoice = some "Yes")

/-- The prompt events shown by the flush: none when `silentDeletion`
short-circuits the warning prompt. -/
def flushShown (env : FlushEnv) (msg : String) : List Ev :=
  if env.silentDeletion then [] else [Ev.promptWarn msg]

/-- The removals performed by the flush: all of them when confirmed or
bypassed, none when declined (extension.ts lines 192-196). -/
def flushCore (env : FlushEnv) (w : World) (rs : List (Csproj × String)) : World × List Ev :=
  if flushDoDelete env then runRemovals env.removeOk env.persistOk w rs else (w, [])

/-- The body of `debouncedRemoveFromCsproj` (extension.ts lines 179-201),
run once when the quiet-window timer fires: clear the pending list
(`onCall`, modelled at the batcher level), `disableInvalidation`, build
the message, prompt unless `silentDeletion`, run the removals if
confirmed or bypassed, `enableInvalidation`.  An empty batch is
unreachable from the batcher; on it the source would throw on
`removals[0]` after `disableInvalidation`, which the model renders as
stopping with suppression left enabled. -/
def debouncedRemoveFromCsproj (env : FlushEnv) (w : World) :
    List (Csproj × String) → World × List Ev
  | [] => ({ w with suppressed := true }, [Ev.suppressOn])
  | r0 :: rest =>
    let w1 : World := { w with suppressed := true }
    let res := flushCore env w1 (r0 :: rest)
    ({ res.1 with suppressed := false },
     Ev.suppressOn :: (flushShown env (flushMessage r0 rest) ++ res.2 ++ [Ev.suppressOff]))

/-! ## The add command (extension.ts lines 88-161) -/

/-- Pick actions of the add prompt (extension.ts lines 137-161). -/
inductive PickKind where
  | yes
  | no
  | never
deriving DecidableEq

/-- `pickActions[pickResult] || pickActions[NO]` (extension.ts line 120):
object lookup by the prompt's result string, defaulting to the `NO`
action when the prompt was dismissed (`undefined`) or the string matches
no key. -/
def pickAction (pickResult : Option String) : PickKind :=
  if pickResult = some "Yes" then PickKind.yes
  else if pickResult = some "Not Now" then PickKind.no
  else if pickResult = some "Never For This File" then PickKind.never
  else PickKind.no

/-- Collaborator inputs consumed by the add command: the configured
`itemType` (`none` models an unset configuration, replaced by the
hard-coded default), the user's response to the add prompt (`none` models
a dismissed prompt), and whether `persist` succeeds. -/
structure AddEnv where
  itemTypeConf : Option ItemType
  promptChoice : Option String
  persistOk : Bool
deriving DecidableEq

/-- `pickActions[YES]` (extension.ts lines 138-149): derive the item type,
`addFile`, `persist`, then status-bar display and an informational
message; a persist failure propagates to the command's catch and is
surfaced with `showErrorMessage`. -/
def yesAction (env : AddEnv) (w : World) (c : Csproj) (fsPath fileName : String) :
    World × List Ev :=
  let tag := getTypeForFile fileName (env.itemTypeConf.getD defaultItemType)
  let c2 := addFile c fsPath tag
  let w2 : World := { w with mem := updateCsproj w.mem c2 }
  if env.persistOk then
    (persist w2 c2,
     [Ev.addFileEv c.fsPath fsPath tag, Ev.persistEv c.fsPath,
      Ev.statusDisplay c.name true,
      Ev.promptInfo ("Added " ++ fileName ++ " to " ++ c.name)])
  else
    (w2, [Ev.addFileEv c.fsPath fsPath tag, Ev.persistEv c.fsPath,
          Ev.showErrorMsg "persist failed"])

/-- The resolved-descriptor part of `csprojCommand` (extension.ts
lines 103-125): already-contained check, then the prompt (auto-answered
`Yes` when `prompt` is false) and the chosen pick action. -/
def csprojAddOk (env : AddEnv) (w : World) (fsPath : String) (prompt : Bool)
    (cref : Csproj) : World × List Ev :=
  let c := (findCsproj w.mem cref.fsPath).getD cref
  let fileName := basename fsPath
  if hasFile c fsPath then
    (w, [Ev.resolveEv fsPath, Ev.statusDisplay c.name true]
        ++ (if prompt then [] else [Ev.promptWarn (fileName ++ " is already in " ++ c.name)]))
  else
    match pickAction (if prompt then env.promptChoice else some "Yes") with
    | PickKind.yes =>
      let r := yesAction env w c fsPath fileName
      (r.1, Ev.resolveEv fsPath :: r.2)
    | PickKind.no => (w, [Ev.resolveEv fsPath, Ev.statusDisplay c.name false])
    | PickKind.never =>
      ({ w with ignorePaths := w.ignorePaths ++ [fsPath] },
       [Ev.resolveEv fsPath, Ev.statusHide,
        Ev.promptInfo ("Added " ++ fileName ++ " to ignore list, to clear list, "
          ++ "run the \"csproj: Clear ignored paths\"")])

/-- `csprojCommand` (extension.ts lines 88-135): return immediately on a
falsy path, a `.csproj` path, or a path without separators; otherwise
resolve the descriptor (`resolveOutcome` supplies `CsprojUtil.forFile`);
a `NoCsprojError` is recovered silently, any other resolution error is
surfaced with `showErrorMessage`. -/
def csprojCommand (env : AddEnv) (w : World) (fsPath : String) (prompt : Bool)
    (resolveOutcome : Except CsErr Csproj) : World × List Ev :=
  if fsPath = "" then (w, [])
  else if hasSuffix fsPath ".csproj" || !(hasSep fsPath) then (w, [])
  else
    match resolveOutcome with
    | Except.error CsErr.noCsproj => (w, [Ev.resolveEv fsPath])
    | Except.error (CsErr.other m) => (w, [Ev.resolveEv fsPath, Ev.showErrorMsg m])
    | Except.ok cref => csprojAddOk env w fsPath prompt cref

/-! ## The deletion batcher (extension.ts lines 163-177 with lodash.debounce) -/

/-- Modelled from the spec: the quiet-window timer of `lodash.debounce` is
an external dependency not under src/; §4.5 describes the batcher as an
Idle / Collecting machine driven by a logical clock.  `pending` is the
module-level `_csprojRemovals` queue (items are the file paths that
passed `handleFileDeletion`'s `hasFile` check), `deadline` the pending
trailing-edge invocation time, `flushed` the record of executed flushes
(each flush runs `debouncedRemoveFromCsproj` once). -/
structure BatchState where
  pending : List String
  deadline : Option Nat
  flushed : List (List String)
deriving DecidableEq

/-- The Idle batcher: nothing pending, no timer, nothing flushed. -/
def initBatch : BatchState := { pending := [], deadline := none, flushed := [] }

/-- Fire the quiet-window timer if it is due at time `now`: the pending
batch is flushed as one unit and the machine returns to Idle. -/
def fireIfDue (now : Nat) (b : BatchState) : BatchState :=
  match b.deadline with
  | some d =>
    if d ≤ now then { pending := [], deadline := none, flushed := b.flushed ++ [b.pending] }
    else b
  | none => b

/-- A delete notification at time `now` (`handleFileDeletion`,
extension.ts lines 163-177): any due flush runs first, then the file is
pushed onto the pending queue and the quiet-window deadline is reset to
`now + wait` (the timer is reset, never accumulated). -/
def notifyDelete (wait now : Nat) (f : String) (b : BatchState) : BatchState :=
  let b2 := fireIfDue now b
  { b2 with pending := b2.pending ++ [f], deadline := some (now + wait) }

/-- Run the batcher over a time-stamped notification sequence. -/
def runDeletes (wait : Nat) : List (Nat × String) → BatchState → BatchState
  | [], b => b
  | (t, f) :: rest, b => runDeletes wait rest (notifyDelete wait t f b)

/-- Run the batcher over a notification sequence and then let the final
quiet-window timer expire. -/
def finishDeletes (wait : Nat) (evts : List (Nat × String)) : BatchState :=
  let b := runDeletes wait evts initBatch
  match b.deadline with
  | some d => fireIfDue d b
  | none => b

/-- Each notification in the list arrives strictly within the quiet
window opened at `t0` by its predecessor. -/
def chainFrom (wait : Nat) : Nat → List (Nat × String) → Bool
  | _, [] => true
  | t0, (t, _) :: rest =>
    (decide (t0 ≤ t) && decide (t < t0 + wait)) && chainFrom wait t rest

/-- Every notification after the first arrives strictly within the quiet
window of the previous one. -/
def withinWindow (wait : Nat) : List (Nat × String) → Bool
  | [] => true
  | (t, _) :: rest => chainFrom wait t rest

/-- Logical time of the last notification, `t0` if there is none. -/
def lastTime (t0 : Nat) : List (Nat × String) → Nat
  | [] => t0
  | (t, _) :: rest => lastTime t rest

/-! ## Event filtering and handlers (extension.ts lines 37-82, 210-237) -/

/-- `isDesiredFile` (extension.ts lines 210-227): the persisted ignore
list is consulted first; the include/exclude regex tests are abstracted
as predicates, `none` modelling a null configuration value. -/
def isDesiredFile (ignorePaths : List String)
    (includeTest excludeTest : Option (String → Bool)) (queryPath : String) : Bool :=
  if ignorePaths.contains queryPath then false
  else if (match includeTest with
           | some f => !(f queryPath)
           | none => false) then false
  else if (match excludeTest with
           | some f => f queryPath
           | none => false) then false
  else true

/-- `ignoreEvent` (extension.ts lines 74-82): undesired files and events
arriving while the status-bar item is visible are ignored. -/
def ignoreEvent (ignorePaths : List String)
    (includeTest excludeTest : Option (String → Bool)) (sbVisible : Bool)
    (fsPath : String) : Bool :=
  if !(isDesiredFile ignorePaths includeTest excludeTest fsPath) then true
  else if sbVisible then true
  else false

/-- The `onDidSaveTextDocument` handler (extension.ts lines 37-42):
executes the add command with prompting unless the event is ignored. -/
def onDidSaveHandler (ignorePaths : List String)
    (includeTest excludeTest : Option (String → Bool)) (sbVisible : Bool)
    (fsPath : String) : List Ev :=
  if ignoreEvent ignorePaths includeTest excludeTest sbVisible fsPath then []
  else [Ev.execAddCmd fsPath]

/-- The `onDidChangeActiveTextEditor` handler (extension.ts lines 44-53):
hides the status-bar item, then executes the add command with prompting
unless the event is ignored. -/
def onEditorChangeHandler (ignorePaths : List String)
    (includeTest excludeTest : Option (String → Bool)) (sbVisible : Bool)
    (fsPath : String) : List Ev :=
  Ev.statusHide :: (if ignoreEvent ignorePaths includeTest excludeTest sbVisible fsPath then []
                    else [Ev.execAddCmd fsPath])

/-- `clearIgnoredPathsCommand` (extension.ts lines 229-231). -/
def clearIgnoredPathsCommand (w : World) : World :=
  { w with ignorePaths := [] }

/-! ## Status-bar module surface (statusbar.ts vs extension.ts) -/

/-- The names exported by src/statusbar.ts (lines 6, 13, 19, 32). -/
def statusbarModuleExports : List String :=
  ["displayStatusBarItem", "hideStatusBarItem", "createStatusBarItem", "visible"]

/-- The member names extension.ts invokes on the imported statusbar
module (lines 47, 64, 71, 78, 106, 147, 151, 156). -/
def extensionStatusBarCallNames : List String :=
  ["hideItem", "displayItem", "createItem", "isVisible"]

/-! ## Shared helper lemmas -/

/-- A tag found by `jsLookup` in a map with nonempty tags is nonempty. -/
lemma jsLookup_ne_empty {m : List (String × String)} {k t : String}
    (hm : ∀ p ∈ m, p.2 ≠ "") (hl : jsLookup m k = some t) : t ≠ "" := by
  unfold jsLookup at hl
  rcases Option.map_eq_some'.mp hl with ⟨q, hq, hqt⟩
  exact hqt ▸ hm q (List.mem_of_find?_eq_some hq)

/-- The last element of a list ending in a singleton. -/
lemma getLast_append_single {α : Type} (l : List α) (a : α) :
    (l ++ [a]).getLast? = some a := by
  induction l with
  | nil => rfl
  | cons x xs ih =>
    rw [List.cons_append, List.getLast?_cons]
    simp [List.getLastD] at ih ⊢

/-! ## Claims -/

/-- Claim C9: for every input path that ends in `.csproj` or contains no
path separator, the add command returns immediately: the world is
unchanged and no effect at all (no resolution, mutation, prompt or
persist) is produced. -/
theorem c9_csproj_guard (env : AddEnv) (w : World) (fsPath : String) (prompt : Bool)
    (res : Except CsErr Csproj)
    (h : hasSuffix fsPath ".csproj" = true ∨ hasSep fsPath = false) :
    csprojCommand env w fsPath prompt res = (w, []) := by
  unfold csprojCommand
  by_cases h0 : fsPath = ""
  · simp [h0]
  · rcases h with h | h <;> simp [h0, h]

/-- Witness for C9 at the concrete path `proj/App.csproj`. -/
theorem c9_csproj_guard_witness :
    (hasSuffix "proj/App.csproj" ".csproj" = true ∨ hasSep "proj/App.csproj" = false)
    ∧ csprojCommand { itemTypeConf := none, promptChoice := none, persistOk := true }
        { suppressed := false, mem := [], disk := [], ignorePaths := [] }
        "proj/App.csproj" true (Except.error CsErr.noCsproj)
      = ({ suppressed := false, mem := [], disk := [], ignorePaths := [] }, []) :=
  ⟨Or.inl (by decide),
   c9_csproj_guard _ _ _ _ _ (Or.inl (by decide))⟩

/-- Claim C10: extension.ts invokes the status-bar module through the
names `hideItem`, `displayItem`, `createItem` and `isVisible`, but
statusbar.ts exports `hideStatusBarItem`, `displayStatusBarItem`,
`createStatusBarItem` and `visible`: none of the invoked names resolves
to an exported function, so every reachable status-bar call site
(including the unconditional `StatusBar.createItem()` during activation)
invokes an undefined member. -/
theorem c10_statusbar_names :
    extensionStatusBarCallNames.all
      (fun n => !(statusbarModuleExports.contains n)) = true
    ∧ "createItem" ∈ extensionStatusBarCallNames
    ∧ "createItem" ∉ statusbarModuleExports := by
  decide

/-- Claim C3: item-type resolution.  A uniform rule yields its tag; an
extension-map rule (with nonempty tags, as item-type tags are) yields the
tag mapped to the file's extension, else the tag mapped to the wildcard
key, else the built-in default `Content`; and under the rule
`{'*': 'Content', '.ts': 'TypeScriptCompile'}` the name `a.ts` resolves
to `TypeScriptCompile` and `a.png` to `Content`. -/
theorem c3_item_type_resolution (fileName tag : String) (m : List (String × String))
    (hm : m.all (fun p => !(p.2 == "")) = true) :
    getTypeForFile fileName (ItemType.uniform tag) = tag
    ∧ getTypeForFile fileName (ItemType.byExt m) = specResolveByExt m (extname fileName)
    ∧ getTypeForFile "a.ts" defaultItemType = "TypeScriptCompile"
    ∧ getTypeForFile "a.png" defaultItemType = "Content" := by
  have hm2 : ∀ p ∈ m, p.2 ≠ "" := by
    intro p hp
    have := List.all_eq_true.mp hm p hp
    simpa using this
  refine ⟨rfl, ?_, by decide, by decide⟩
  simp only [getTypeForFile, specResolveByExt]
  cases h1 : jsLookup m (extname fileName) with
  | some t =>
    have ht := jsLookup_ne_empty hm2 h1
    simp [jsOr, h1, ht]
  | none =>
    cases h2 : jsLookup m "*" with
    | some t2 =>
      have ht2 := jsLookup_ne_empty hm2 h2
      simp [jsOr, h1, h2, ht2]
    | none => simp [jsOr, h1, h2]

/-- Witness for C3 at the default rule and the name `b.png`. -/
theorem c3_item_type_resolution_witness :
    ([("*", "Content"), (".ts", "TypeScriptCompile")].all
       (fun p => !(p.2 == "")) = true)
    ∧ (getTypeForFile "b.png" (ItemType.uniform "Page") = "Page"
       ∧ getTypeForFile "b.png" (ItemType.byExt [("*", "Content"), (".ts", "TypeScriptCompile")])
           = specResolveByExt [("*", "Content"), (".ts", "TypeScriptCompile")] (extname "b.png")
       ∧ getTypeForFile "a.ts" defaultItemType = "TypeScriptCompile"
       ∧ getTypeForFile "a.png" defaultItemType = "Content") :=
  ⟨by decide,
   c3_item_type_resolution "b.png" "Page" [("*", "Content"), (".ts", "TypeScriptCompile")]
     (by decide)⟩

/-- While all deadlines are kept ahead of the arriving notifications, the
batcher only accumulates: no intermediate flush fires and the deadline
tracks the last notification. -/
lemma runDeletes_collect (wait : Nat) (evts : List (Nat × String)) :
    ∀ (t0 : Nat) (p : List String) (fl : List (List String)),
    chainFrom wait t0 evts = true →
    runDeletes wait evts { pending := p, deadline := some (t0 + wait), flushed := fl }
      = { pending := p ++ evts.map Prod.snd,
          deadline := some (lastTime t0 evts + wait), flushed := fl } := by
  induction evts with
  | nil => intro t0 p fl _; simp [runDeletes, lastTime]
  | cons e rest ih =>
    intro t0 p fl hc
    obtain ⟨t, f⟩ := e
    unfold chainFrom at hc
    simp only [Bool.and_eq_true, decide_eq_true_eq] at hc
    obtain ⟨⟨h1, h2⟩, h3⟩ := hc
    have hne : ¬(t0 + wait ≤ t) := by omega
    unfold runDeletes notifyDelete fireIfDue
    simp only [hne, if_false]
    rw [ih t (p ++ [f]) fl h3]
    simp [lastTime]

/-- Claim C4: a sequence of deletion notifications in which each arrives
strictly within the quiet window of the previous one produces exactly one
flush, containing all notifications of the sequence in order (the timer
is reset by each event; no second batch overlaps the collection). -/
theorem c4_debounce_single_flush (wait : Nat) (evts : List (Nat × String))
    (hne : evts ≠ []) (hw : withinWindow wait evts = true) :
    finishDeletes wait evts
      = { pending := [], deadline := none, flushed := [evts.map Prod.snd] } := by
  cases evts with
  | nil => exact absurd rfl hne
  | cons e rest =>
    obtain ⟨t, f⟩ := e
    have hw2 : chainFrom wait t rest = true := hw
    have h1 : runDeletes wait ((t, f) :: rest) initBatch
        = runDeletes wait rest
            { pending := [f], deadline := some (t + wait), flushed := [] } := by
      simp [runDeletes, notifyDelete, fireIfDue, initBatch]
    unfold finishDeletes
    rw [h1, runDeletes_collect wait rest t [f] [] hw2]
    simp [fireIfDue]

/-- Witness for C4: three notifications 500 ms apart with a 2000 ms quiet
window flush exactly once, as one batch of all three files. -/
theorem c4_debounce_single_flush_witness :
    ([((0 : Nat), "a"), (500, "b"), (1000, "c")] ≠ ([] : List (Nat × String)))
    ∧ withinWindow 2000 [((0 : Nat), "a"), (500, "b"), (1000, "c")] = true
    ∧ finishDeletes 2000 [((0 : Nat), "a"), (500, "b"), (1000, "c")]
        = { pending := [], deadline := none, flushed := [["a", "b", "c"]] } :=
  ⟨by decide, by decide,
   c4_debounce_single_flush 2000 [((0 : Nat), "a"), (500, "b"), (1000, "c")]
     (by decide) (by decide)⟩

/-- A removal executed with the csproj provided emits exactly one removal
event on success and one error message on failure; it never persists. -/
lemma removeCmd_provided_events (w : World) (f : String) (c : Csproj)
    (res : Except CsErr Csproj) (ro po : Bool) :
    (csprojRemoveCommand w f (some c) res ro po).2
      = if ro then [Ev.removeFileEv c.fsPath f] else [Ev.showErrorMsg "remove failed"] := by
  cases ro <;> simp [csprojRemoveCommand, removeBody]

/-- A removal executed with the csproj provided leaves the disk untouched. -/
lemma removeCmd_provided_disk (w : World) (f : String) (c : Csproj)
    (res : Except CsErr Csproj) (ro po : Bool) :
    (csprojRemoveCommand w f (some c) res ro po).1.disk = w.disk := by
  cases ro <;> simp [csprojRemoveCommand, removeBody]

/-- The flush's removal loop leaves the disk untouched. -/
lemma runRemovals_disk (ro po : Bool) (rs : List (Csproj × String)) :
    ∀ w, (runRemovals ro po w rs).1.disk = w.disk := by
  induction rs with
  | nil => intro w; rfl
  | cons r rest ih =>
    intro w
    unfold runRemovals
    simp only []
    rw [ih, removeCmd_provided_disk]

/-- Every event of the flush's removal loop is a removal or an error
message: never a persist, never a prompt. -/
lemma runRemovals_events (ro po : Bool) (rs : List (Csproj × String)) :
    ∀ w e, e ∈ (runRemovals ro po w rs).2 →
      isPromptEv e = false ∧ ∀ p, e ≠ Ev.persistEv p := by
  induction rs with
  | nil => intro w e h; simp [runRemovals] at h
  | cons r rest ih =>
    intro w e h
    unfold runRemovals at h
    simp only [List.mem_append] at h
    rcases h with h | h
    · rw [removeCmd_provided_events] at h
      cases ro <;> simp_all [isPromptEv]
    · exact ih _ e h

/-- No persist event occurs in the flush's removal loop. -/
lemma runRemovals_no_persist (ro po : Bool) (rs : List (Csproj × String))
    (w : World) (p : String) : Ev.persistEv p ∉ (runRemovals ro po w rs).2 := by
  intro h
  exact (runRemovals_events ro po rs w _ h).2 p rfl

/-- Filtering prompt events out of the flush's removal loop changes
nothing. -/
lemma runRemovals_filter (ro po : Bool) (rs : List (Csproj × String)) (w : World) :
    ((runRemovals ro po w rs).2).filter (fun e => !(isPromptEv e))
      = (runRemovals ro po w rs).2 := by
  rw [List.filter_eq_self]
  intro e he
  simp [(runRemovals_events ro po rs w e he).1]

/-- Concrete descriptor for the C1 failing input: `App.csproj` tracking
`foo.ts`. -/
def cC1 : Csproj :=
  { fsPath := "/proj/App.csproj", name := "App",
    entries := [("/proj/foo.ts", "Content")] }

/-- Concrete world for the C1 failing input: `foo.ts` tracked both in the
live descriptor and on disk. -/
def wC1 : World :=
  { suppressed := false, mem := [cC1],
    disk := [("/proj/App.csproj", [("/proj/foo.ts", "Content")])],
    ignorePaths := [] }

/-- Flush environment for the C1 failing input: silent deletion, so the
batch proceeds as confirmed; all collaborator calls succeed. -/
def envC1 : FlushEnv :=
  { silentDeletion := true, warnChoice := none, removeOk := true, persistOk := true }

/-- Claim C1 (evaluated against the code): the flush of a confirmed (or
silently bypassed) deletion batch never performs any persist — no persist
event occurs and the disk is left untouched for every batch — while the
concrete confirmed batch over `App.csproj` does remove `foo.ts` from the
in-memory descriptor, leaving disk and memory divergent before
invalidation is restored.  This contradicts the claim (and the source's
own comment that the caller of the remove command will persist). -/
theorem c1_flush_never_persists :
    (∀ (env : FlushEnv) (w : World) (rs : List (Csproj × String)) (p : String),
       Ev.persistEv p ∉ (debouncedRemoveFromCsproj env w rs).2)
    ∧ (∀ (env : FlushEnv) (w : World) (rs : List (Csproj × String)),
       (debouncedRemoveFromCsproj env w rs).1.disk = w.disk)
    ∧ (debouncedRemoveFromCsproj envC1 wC1 [(cC1, "/proj/foo.ts")]).1.mem
        = [{ cC1 with entries := [] }]
    ∧ (debouncedRemoveFromCsproj envC1 wC1 [(cC1, "/proj/foo.ts")]).1.disk
        = [("/proj/App.csproj", [("/proj/foo.ts", "Content")])]
    ∧ Ev.removeFileEv "/proj/App.csproj" "/proj/foo.ts"
        ∈ (debouncedRemoveFromCsproj envC1 wC1 [(cC1, "/proj/foo.ts")]).2 := by
  refine ⟨?_, ?_, by decide, by decide, by decide⟩
  · intro env w rs p h
    cases rs with
    | nil => simp [debouncedRemoveFromCsproj] at h
    | cons r0 rest =>
      simp only [debouncedRemoveFromCsproj, flushShown, flushCore,
        List.mem_cons, List.mem_append] at h
      rcases h with h | h
      · exact Ev.noConfusion h
      rcases h with h | h
      · rcases h with h | h
        · split at h <;> simp at h
        · split at h
          · exact runRemovals_no_persist _ _ _ _ p h
          · simp at h
      · simp at h
  · intro env w rs
    cases rs with
    | nil => rfl
    | cons r0 rest =>
      simp only [debouncedRemoveFromCsproj]
      unfold flushCore
      split
      · rw [runRemovals_disk]
      · rfl

/-- The last element of a cons around two appended lists and a final
singleton. -/
lemma getLast_cons_append {α : Type} (a b : α) (l1 l2 : List α) :
    (a :: (l1 ++ l2 ++ [b])).getLast? = some b := by
  have h : a :: (l1 ++ l2 ++ [b]) = (a :: (l1 ++ l2)) ++ [b] := by simp
  rw [h]
  exact getLast_append_single _ _

/-- Claim C2 (amended): the batched-deletion flush applies suppression as
a bracket: for every nonempty batch, the flush's first event enables
suppression, its last event disables it, and the resulting world has
suppression disabled — on every completion path (confirmed, declined,
silent, failing removal or persist, the failures being caught inside the
remove command). -/
theorem c2_flush_suppression_bracket (env : FlushEnv) (w : World)
    (rs : List (Csproj × String)) (h : rs ≠ []) :
    (debouncedRemoveFromCsproj env w rs).1.suppressed = false
    ∧ (debouncedRemoveFromCsproj env w rs).2.head? = some Ev.suppressOn
    ∧ (debouncedRemoveFromCsproj env w rs).2.getLast? = some Ev.suppressOff := by
  cases rs with
  | nil => exact absurd rfl h
  | cons r0 rest =>
    refine ⟨rfl, rfl, ?_⟩
    simp only [debouncedRemoveFromCsproj]
    exact getLast_cons_append _ _ _ _

/-- Witness for the amended C2 at a concrete confirmed batch. -/
theorem c2_flush_suppression_bracket_witness :
    ([(cC1, "/proj/foo.ts")] ≠ ([] : List (Csproj × String)))
    ∧ ((debouncedRemoveFromCsproj envC1 wC1 [(cC1, "/proj/foo.ts")]).1.suppressed = false
       ∧ (debouncedRemoveFromCsproj envC1 wC1 [(cC1, "/proj/foo.ts")]).2.head?
           = some Ev.suppressOn
       ∧ (debouncedRemoveFromCsproj envC1 wC1 [(cC1, "/proj/foo.ts")]).2.getLast?
           = some Ev.suppressOff) :=
  ⟨by decide, c2_flush_suppression_bracket envC1 wC1 [(cC1, "/proj/foo.ts")] (by decide)⟩

/-- Concrete descriptor for the C2 counterexample. -/
def cC2 : Csproj :=
  { fsPath := "/p/App.csproj", name := "App", entries := [("/p/a.ts", "Content")] }

/-- Concrete world for the C2 counterexample: suppression disabled, the
descriptor live and persisted. -/
def wC2 : World :=
  { suppressed := false, mem := [cC2],
    disk := [("/p/App.csproj", [("/p/a.ts", "Content")])],
    ignorePaths := [] }

/-- Counterexample to C2 as stated: the directly invoked remove command
is a mutation-then-persist sequence (its trace removes the entry and then
persists), yet suppression is never enabled during it — the world starts
unsuppressed and no suppression event occurs — so suppression is not a
bracket around every mutation-then-persist sequence. -/
theorem c2_unbracketed_persist_counterexample :
    wC2.suppressed = false
    ∧ (csprojRemoveCommand wC2 "/p/a.ts" none (Except.ok cC2) true true).2
        = [Ev.resolveEv "/p/a.ts", Ev.removeFileEv "/p/App.csproj" "/p/a.ts",
           Ev.persistEv "/p/App.csproj"]
    ∧ Ev.suppressOn ∉ (csprojRemoveCommand wC2 "/p/a.ts" none (Except.ok cC2) true true).2
    ∧ (csprojRemoveCommand wC2 "/p/a.ts" none (Except.ok cC2) true true).1.suppressed
        = false := by
  decide

/-- Claim C6: a `NoCsprojError` during resolution is recovered silently
by the (passive) add command — the world is unchanged and no user-facing
message is produced — while the explicit remove command surfaces a
user-visible error naming the file; any other resolution failure in the
add path is surfaced with its message. -/
theorem c6_no_descriptor_error_handling (env : AddEnv) (w : World) (fsPath : String)
    (prompt : Bool) (m : String) (ro po : Bool)
    (hsep : hasSep fsPath = true) (hsuf : hasSuffix fsPath ".csproj" = false) :
    csprojCommand env w fsPath prompt (Except.error CsErr.noCsproj)
      = (w, [Ev.resolveEv fsPath])
    ∧ csprojCommand env w fsPath prompt (Except.error (CsErr.other m))
        = (w, [Ev.resolveEv fsPath, Ev.showErrorMsg m])
    ∧ csprojRemoveCommand w fsPath none (Except.error CsErr.noCsproj) ro po
        = (w, [Ev.resolveEv fsPath,
               Ev.showErrorMsg ("Unable to locate csproj for file: " ++ basename fsPath)]) := by
  have h0 : ¬(fsPath = "") := by
    intro he
    rw [he] at hsep
    simp [hasSep] at hsep
  refine ⟨?_, ?_, rfl⟩ <;> simp [csprojCommand, h0, hsuf, hsep]

/-- Witness for C6 at the concrete path `/p/foo.ts`. -/
theorem c6_no_descriptor_error_handling_witness :
    hasSep "/p/foo.ts" = true
    ∧ hasSuffix "/p/foo.ts" ".csproj" = false
    ∧ (csprojCommand { itemTypeConf := none, promptChoice := none, persistOk := true }
         wC2 "/p/foo.ts" true (Except.error CsErr.noCsproj)
         = (wC2, [Ev.resolveEv "/p/foo.ts"])
       ∧ csprojCommand { itemTypeConf := none, promptChoice := none, persistOk := true }
           wC2 "/p/foo.ts" true (Except.error (CsErr.other "parse failure"))
           = (wC2, [Ev.resolveEv "/p/foo.ts", Ev.showErrorMsg "parse failure"])
       ∧ csprojRemoveCommand wC2 "/p/foo.ts" none (Except.error CsErr.noCsproj) true true
           = (wC2, [Ev.resolveEv "/p/foo.ts",
                    Ev.showErrorMsg ("Unable to locate csproj for file: " ++ basename "/p/foo.ts")])) :=
  ⟨by decide, by decide,
   c6_no_descriptor_error_handling _ wC2 "/p/foo.ts" true "parse failure" true true
     (by decide) (by decide)⟩

/-- Claim C8: a save or active-editor-change event whose file path is on
the persisted ignore list never reaches the auto-add command: the save
handler does nothing and the editor-change handler only hides the
status-bar item. -/
theorem c8_ignore_list_blocks_add (ip : List String)
    (it et : Option (String → Bool)) (sb : Bool) (p : String) (h : p ∈ ip) :
    onDidSaveHandler ip it et sb p = []
    ∧ onEditorChangeHandler ip it et sb p = [Ev.statusHide] := by
  have hc : ip.contains p = true := by
    simpa using h
  have hd : isDesiredFile ip it et p = false := by
    simp [isDesiredFile, hc, h]
  have hi : ignoreEvent ip it et sb p = true := by
    simp [ignoreEvent, hd]
  exact ⟨by simp [onDidSaveHandler, hi], by simp [onEditorChangeHandler, hi]⟩

/-- Witness for C8 at a concrete ignore list containing the saved path. -/
theorem c8_ignore_list_blocks_add_witness :
    "/a/b.ts" ∈ ["/a/b.ts", "/a/c.ts"]
    ∧ (onDidSaveHandler ["/a/b.ts", "/a/c.ts"] (some (fun _ => true)) none false "/a/b.ts" = []
       ∧ onEditorChangeHandler ["/a/b.ts", "/a/c.ts"] (some (fun _ => true)) none false "/a/b.ts"
           = [Ev.statusHide]) :=
  ⟨by decide,
   c8_ignore_list_blocks_add ["/a/b.ts", "/a/c.ts"] (some (fun _ => true)) none false
     "/a/b.ts" (by decide)⟩

/-- Claim C5: a prompt dismissed or blurred without an explicit choice
resolves to the decline action.  With the add prompt's result absent, the
add command changes nothing and neither adds an entry nor persists; with
the deletion confirmation's result absent (and the silent flag off), the
flush removes nothing and leaves memory and disk untouched. -/
theorem c5_dismissed_prompts_decline (env : AddEnv) (w : World) (fsPath : String)
    (res : Except CsErr Csproj) (fenv : FlushEnv) (rs : List (Csproj × String)) :
    (env.promptChoice = none →
      ((csprojCommand env w fsPath true res).1 = w
       ∧ (∀ p f t, Ev.addFileEv p f t ∉ (csprojCommand env w fsPath true res).2)
       ∧ (∀ p, Ev.persistEv p ∉ (csprojCommand env w fsPath true res).2)))
    ∧ (fenv.silentDeletion = false → fenv.warnChoice = none →
      ((debouncedRemoveFromCsproj fenv w rs).1.mem = w.mem
       ∧ (debouncedRemoveFromCsproj fenv w rs).1.disk = w.disk
       ∧ (∀ p f, Ev.removeFileEv p f ∉ (debouncedRemoveFromCsproj fenv w rs).2))) := by
  constructor
  · intro hn
    unfold csprojCommand
    by_cases h0 : fsPath = ""
    · simp [h0]
    · simp only [h0, if_false]
      by_cases h1 : (hasSuffix fsPath ".csproj" || !(hasSep fsPath)) = true
      · simp [h1]
      · simp only [h1, if_false]
        cases res with
        | error e => cases e <;> simp
        | ok cref =>
          unfold csprojAddOk
          simp only [if_true, hn, pickAction]
          by_cases h2 : hasFile ((findCsproj w.mem cref.fsPath).getD cref) fsPath = true
          · simp [h2]
          · simp [h2]
  · intro hs hw
    cases rs with
    | nil => refine ⟨rfl, rfl, ?_⟩; intro p f; simp [debouncedRemoveFromCsproj]
    | cons r0 rest =>
      have hd : flushDoDelete fenv = false := by
        simp [flushDoDelete, hs, hw]
      have hcore : flushCore fenv { w with suppressed := true } (r0 :: rest)
          = ({ w with suppressed := true }, []) := by
        simp [flushCore, hd]
      refine ⟨?_, ?_, ?_⟩
      · simp [debouncedRemoveFromCsproj, hcore]
      · simp [debouncedRemoveFromCsproj, hcore]
      · intro p f
        simp [debouncedRemoveFromCsproj, hcore, flushShown, hs]

/-- Witness for C5 at concrete dismissed prompts. -/
theorem c5_dismissed_prompts_decline_witness :
    ({ itemTypeConf := none, promptChoice := none, persistOk := true : AddEnv }.promptChoice
       = none)
    ∧ ({ silentDeletion := false, warnChoice := none, removeOk := true,
         persistOk := true : FlushEnv }.silentDeletion = false)
    ∧ ({ silentDeletion := false, warnChoice := none, removeOk := true,
         persistOk := true : FlushEnv }.warnChoice = none)
    ∧ ((csprojCommand { itemTypeConf := none, promptChoice := none, persistOk := true }
          wC2 "/p/a.ts" true (Except.ok cC2)).1 = wC2
       ∧ (∀ p f t, Ev.addFileEv p f t
            ∉ (csprojCommand { itemTypeConf := none, promptChoice := none, persistOk := true }
                 wC2 "/p/a.ts" true (Except.ok cC2)).2)
       ∧ (∀ p, Ev.persistEv p
            ∉ (csprojCommand { itemTypeConf := none, promptChoice := none, persistOk := true }
                 wC2 "/p/a.ts" true (Except.ok cC2)).2))
    ∧ ((debouncedRemoveFromCsproj
          { silentDeletion := false, warnChoice := none, removeOk := true, persistOk := true }
          wC2 [(cC2, "/p/a.ts")]).1.mem = wC2.mem
       ∧ (debouncedRemoveFromCsproj
            { silentDeletion := false, warnChoice := none, removeOk := true, persistOk := true }
            wC2 [(cC2, "/p/a.ts")]).1.disk = wC2.disk
       ∧ (∀ p f, Ev.removeFileEv p f
            ∉ (debouncedRemoveFromCsproj
                 { silentDeletion := false, warnChoice := none, removeOk := true, persistOk := true }
                 wC2 [(cC2, "/p/a.ts")]).2)) :=
  ⟨rfl, rfl, rfl,
   (c5_dismissed_prompts_decline
      { itemTypeConf := none, promptChoice := none, persistOk := true } wC2 "/p/a.ts"
      (Except.ok cC2)
      { silentDeletion := false, warnChoice := none, removeOk := true, persistOk := true }
      [(cC2, "/p/a.ts")]).1 rfl,
   (c5_dismissed_prompts_decline
      { itemTypeConf := none, promptChoice := none, persistOk := true } wC2 "/p/a.ts"
      (Except.ok cC2)
      { silentDeletion := false, warnChoice := none, removeOk := true, persistOk := true }
      [(cC2, "/p/a.ts")]).2 rfl rfl⟩

/-- Claim C7: on flush, more than one pending removal yields the single
combined confirmation stating the number of deleted files; exactly one
yields the descriptor-specific message naming the file and its
descriptor; and with the silent-deletion flag set no prompt at all is
shown and the flush behaves exactly as a confirmed one (same resulting
world, same events minus the prompt). -/
theorem c7_flush_confirmation (env : FlushEnv) (w : World)
    (rs : List (Csproj × String)) (c : Csproj) (f : String) :
    (env.silentDeletion = false → 1 < rs.length →
       Ev.promptWarn (multiDeleteMessage (rs.map Prod.snd))
         ∈ (debouncedRemoveFromCsproj env w rs).2)
    ∧ (env.silentDeletion = false →
       Ev.promptWarn (singleDeleteMessage c f)
         ∈ (debouncedRemoveFromCsproj env w [(c, f)]).2)
    ∧ (env.silentDeletion = true →
       ((∀ msg, Ev.promptWarn msg ∉ (debouncedRemoveFromCsproj env w rs).2)
        ∧ (debouncedRemoveFromCsproj env w rs).1
            = (debouncedRemoveFromCsproj
                 { env with silentDeletion := false, warnChoice := some "Yes" } w rs).1
        ∧ (debouncedRemoveFromCsproj env w rs).2
            = ((debouncedRemoveFromCsproj
                  { env with silentDeletion := false, warnChoice := some "Yes" } w rs).2).filter
                (fun e => !(isPromptEv e)))) := by
  refine ⟨?_, ?_, ?_⟩
  · intro hs hl
    cases rs with
    | nil => simp at hl
    | cons r0 rest =>
      have hl2 : 0 < rest.length := by
        simp only [List.length_cons] at hl
        omega
      simp [debouncedRemoveFromCsproj, flushShown, flushMessage, hs, hl2]
  · intro hs
    simp [debouncedRemoveFromCsproj, flushShown, flushMessage, hs]
  · intro hs
    refine ⟨?_, ?_, ?_⟩
    · intro msg hmem
      cases rs with
      | nil => simp [debouncedRemoveFromCsproj] at hmem
      | cons r0 rest =>
        simp only [debouncedRemoveFromCsproj, flushShown, flushCore, hs,
          List.mem_cons, List.mem_append, if_true] at hmem
        rcases hmem with hmem | hmem
        · exact Ev.noConfusion hmem
        rcases hmem with hmem | hmem
        · rcases hmem with hmem | hmem
          · simp at hmem
          · split at hmem
            · exact absurd (runRemovals_events _ _ _ _ _ hmem).1 (by simp [isPromptEv])
            · simp at hmem
        · simp at hmem
    · cases rs with
      | nil => rfl
      | cons r0 rest =>
        simp [debouncedRemoveFromCsproj, flushCore, flushDoDelete, hs]
    · cases rs with
      | nil => simp [debouncedRemoveFromCsproj, isPromptEv]
      | cons r0 rest =>
        have h1 : isPromptEv Ev.suppressOn = false := rfl
        have h2 : isPromptEv (Ev.promptWarn (flushMessage r0 rest)) = true := rfl
        have h3 : isPromptEv Ev.suppressOff = false := rfl
        simp only [debouncedRemoveFromCsproj, flushShown, flushCore, flushDoDelete, hs]
        simp [List.filter_append, List.filter_cons, h1, h2, h3, runRemovals_filter]

/-- Witness for C7 at concrete one- and two-element batches. -/
theorem c7_flush_confirmation_witness :
    ((envC1.silentDeletion = true)
     ∧ ({ silentDeletion := false, warnChoice := some "Yes", removeOk := true,
          persistOk := true : FlushEnv }.silentDeletion = false)
     ∧ (1 < ([(cC1, "/proj/foo.ts"), (cC2, "/p/a.ts")] : List (Csproj × String)).length))
    ∧ Ev.promptWarn (multiDeleteMessage ["/proj/foo.ts", "/p/a.ts"])
        ∈ (debouncedRemoveFromCsproj
             { silentDeletion := false, warnChoice := some "Yes", removeOk := true,
               persistOk := true }
             wC1 [(cC1, "/proj/foo.ts"), (cC2, "/p/a.ts")]).2
    ∧ Ev.promptWarn (singleDeleteMessage cC2 "/p/a.ts")
        ∈ (debouncedRemoveFromCsproj
             { silentDeletion := false, warnChoice := some "Yes", removeOk := true,
               persistOk := true }
             wC1 [(cC2, "/p/a.ts")]).2
    ∧ (∀ msg, Ev.promptWarn msg
         ∉ (debouncedRemoveFromCsproj envC1 wC1 [(cC1, "/proj/foo.ts")]).2) :=
  ⟨⟨rfl, rfl, by decide⟩,
   (c7_flush_confirmation
      { silentDeletion := false, warnChoice := some "Yes", removeOk := true, persistOk := true }
      wC1 [(cC1, "/proj/foo.ts"), (cC2, "/p/a.ts")] cC2 "/p/a.ts").1 rfl (by decide),
   (c7_flush_confirmation
      { silentDeletion := false, warnChoice := some "Yes", removeOk := true, persistOk := true }
      wC1 [(cC2, "/p/a.ts")] cC2 "/p/a.ts").2.1 rfl,
   ((c7_flush_confirmation envC1 wC1 [(cC1, "/proj/foo.ts")] cC1 "/proj/foo.ts").2.2 rfl).1⟩

end VscodeCsproj
